import Mathlib

/-!
# Verification of the music-backend song-library services

A shallow embedding of the recurring core logic of the `music-backend`
repository: the key-space taxonomy resolver (folder listings derived from
flat object-storage keys, per-folder song listings, search) and the
temporary-access credential issuer (the cached Backblaze B2 authorization
and the per-file download-authorization requests), as implemented by
`src/server.js` and the variants in `src/unnamed/part_000` … `part_010`.

Strings are modelled with Lean `String` (a list of unicode scalar values);
the JavaScript string operations used by the handlers (`includes`,
`replace` with first-occurrence semantics, `trim`, `toLowerCase`,
`toUpperCase`, `endsWith`, `split('/')[0]`, `path.basename`,
`path.dirname`, `encodeURIComponent`) are given executable definitions
below.  JavaScript case mapping is modelled on the basic-latin range via
`Char.toLower` / `Char.toUpper`, which implement exactly the ASCII case
maps.  The storage backend's listing calls (`bucket.getFiles`,
`b2.listFileNames`) are modelled by their documented semantics: a
`prefix`-filtered listing returns the keys extending the prefix, and a
`delimiter: '/'` listing returns the distinct first-segment prefixes of
the keys that contain a `'/'`.
-/

namespace MusicBackend

/-! ## Character-level facts about the ASCII case maps -/

/-- `Char.ofNat` of a valid codepoint round-trips through `toNat`. -/
theorem toNat_ofNat_valid {n : Nat} (h : n.isValidChar) : (Char.ofNat n).toNat = n := by
  simp [Char.ofNat, dif_pos h, Char.ofNatAux, Char.toNat, UInt32.toNat]

/-- Characters with equal codepoints are equal. -/
theorem char_toNat_inj {a b : Char} (h : a.toNat = b.toNat) : a = b := by
  apply Char.eq_of_val_eq
  apply UInt32.eq_of_toBitVec_eq
  exact BitVec.eq_of_toNat_eq h

/-- Codepoint characterisation of `Char.toUpper` (the ASCII upper-case map). -/
theorem toNat_toUpper (c : Char) :
    c.toUpper.toNat = if 97 ≤ c.toNat ∧ c.toNat ≤ 122 then c.toNat - 32 else c.toNat := by
  unfold Char.toUpper
  split
  · next h =>
    rw [if_pos ⟨h.1, h.2⟩]
    exact toNat_ofNat_valid (Or.inl (by omega))
  · next h =>
    rw [if_neg (fun hc => h ⟨hc.1, hc.2⟩)]

/-- Codepoint characterisation of `Char.toLower` (the ASCII lower-case map). -/
theorem toNat_toLower (c : Char) :
    c.toLower.toNat = if 65 ≤ c.toNat ∧ c.toNat ≤ 90 then c.toNat + 32 else c.toNat := by
  unfold Char.toLower
  split
  · next h =>
    rw [if_pos ⟨h.1, h.2⟩]
    exact toNat_ofNat_valid (Or.inl (by omega))
  · next h =>
    rw [if_neg (fun hc => h ⟨hc.1, hc.2⟩)]

/-- Lower-casing after upper-casing agrees with lower-casing directly. -/
theorem toLower_toUpper (c : Char) : c.toUpper.toLower = c.toLower := by
  apply char_toNat_inj
  rw [toNat_toLower, toNat_toLower, toNat_toUpper]
  split_ifs <;> omega

/-- Codepoint characterisation of `Char.isWhitespace`. -/
theorem isWhitespace_eq (c : Char) :
    c.isWhitespace =
      decide (c.toNat = 32 ∨ c.toNat = 9 ∨ c.toNat = 13 ∨ c.toNat = 10) := by
  unfold Char.isWhitespace
  apply Bool.eq_iff_iff.mpr
  simp only [Bool.or_eq_true, decide_eq_true_eq]
  constructor
  · rintro (((h | h) | h) | h) <;> subst h <;> decide
  · rintro (h | h | h | h)
    · exact Or.inl (Or.inl (Or.inl (char_toNat_inj (by rw [h]; rfl))))
    · exact Or.inl (Or.inl (Or.inr (char_toNat_inj (by rw [h]; rfl))))
    · exact Or.inl (Or.inr (char_toNat_inj (by rw [h]; rfl)))
    · exact Or.inr (char_toNat_inj (by rw [h]; rfl))

/-- Upper-casing does not change whether a character is whitespace. -/
theorem isWhitespace_toUpper (c : Char) : c.toUpper.isWhitespace = c.isWhitespace := by
  rw [isWhitespace_eq, isWhitespace_eq, toNat_toUpper]
  split_ifs with h
  · exact decide_eq_decide.mpr (by omega)
  · rfl

/-! ## JavaScript string operations -/

/-- JS `haystack.includes(pat)` on character lists: `true` iff `pat` occurs
as a contiguous substring. -/
def jsIncludesL (pat : List Char) : List Char → Bool
  | [] => pat.isEmpty
  | c :: cs => pat.isPrefixOf (c :: cs) || jsIncludesL pat cs

/-- JS `s.includes(pat)`. -/
def jsIncludes (s pat : String) : Bool :=
  jsIncludesL pat.data s.data

/-- JS `s.replace(pat, repl)` with a string pattern replaces only the first
occurrence; this is the character-list worker. -/
def jsReplaceOnceL (pat repl : List Char) : List Char → List Char
  | [] => if pat.isPrefixOf ([] : List Char) then repl ++ ([] : List Char).drop pat.length else []
  | c :: cs =>
    if pat.isPrefixOf (c :: cs) then repl ++ (c :: cs).drop pat.length
    else c :: jsReplaceOnceL pat repl cs

/-- JS `s.replace(pat, repl)` (first occurrence only). -/
def jsReplaceOnce (s pat repl : String) : String :=
  ⟨jsReplaceOnceL pat.data repl.data s.data⟩

/-- JS `s.trim()`: strip whitespace from both ends. -/
def jsTrim (s : String) : String :=
  ⟨((s.data.dropWhile Char.isWhitespace).reverse.dropWhile Char.isWhitespace).reverse⟩

/-- JS `s.toLowerCase()`, restricted to the basic-latin range. -/
def jsToLower (s : String) : String :=
  ⟨s.data.map Char.toLower⟩

/-- JS `s.toUpperCase()`, restricted to the basic-latin range. -/
def jsToUpper (s : String) : String :=
  ⟨s.data.map Char.toUpper⟩

/-- JS `s.endsWith(pat)`. -/
def jsEndsWith (s pat : String) : Bool :=
  pat.data.isSuffixOf s.data

/-- JS `s.startsWith(pat)`; also the semantics of a backend `prefix`-filtered
object listing. -/
def jsStartsWith (s pat : String) : Bool :=
  pat.data.isPrefixOf s.data

/-- JS `s.split('/')[0]`: the part of `s` before its first `'/'`
(all of `s` when there is no `'/'`). -/
def jsSplitHead (s : String) : String :=
  ⟨s.data.takeWhile (· != '/')⟩

/-- Node `path.basename(s)`: the final path segment, ignoring trailing
slashes. -/
def basenameJs (s : String) : String :=
  ⟨((s.data.reverse.dropWhile (· == '/')).takeWhile (· != '/')).reverse⟩

/-- Node `path.dirname(s)` for paths without a leading slash: everything
before the last `'/'` (after ignoring trailing slashes), or `"."` when
there is no directory part. -/
def jsDirname (s : String) : String :=
  let r := s.data.reverse.dropWhile (· == '/')
  if r.contains '/' then ⟨((r.dropWhile (· != '/')).drop 1).reverse⟩ else "."

/-! ## Lemmas about the JavaScript string operations -/

/-- `includes` with an empty pattern is always `true`. -/
theorem jsIncludesL_nil (l : List Char) : jsIncludesL [] l = true := by
  cases l <;> simp [jsIncludesL, List.isEmpty, List.isPrefixOf]

/-- Replacing a pattern that starts the string drops exactly the pattern. -/
theorem jsReplaceOnceL_of_isPrefixOf {pat l : List Char}
    (h : pat.isPrefixOf l = true) : jsReplaceOnceL pat [] l = l.drop pat.length := by
  cases l <;> simp [jsReplaceOnceL, h]

/-- `jsReplaceOnce` of a leading pattern by `""` strips the pattern. -/
theorem jsReplaceOnce_of_startsWith {s pat : String}
    (h : jsStartsWith s pat = true) :
    jsReplaceOnce s pat "" = ⟨s.data.drop pat.data.length⟩ := by
  unfold jsReplaceOnce
  rw [jsReplaceOnceL_of_isPrefixOf h]

/-- Replacing the single `'/'` terminating a slash-free segment yields the
segment. -/
theorem jsReplaceOnceL_seg_slash {seg : List Char} (h : '/' ∉ seg) :
    jsReplaceOnceL ['/'] [] (seg ++ ['/']) = seg := by
  induction seg with
  | nil => rfl
  | cons c cs ih =>
    have hc : c ≠ '/' := fun hc => h (hc ▸ List.mem_cons_self c cs)
    have hb : (('/' : Char) == c) = false := by
      simp [hc.symm]
    simp only [List.cons_append, jsReplaceOnceL, List.isPrefixOf, hb, Bool.false_and,
      Bool.false_eq_true, if_false]
    exact congrArg (c :: ·) (ih (fun hm => h (List.mem_cons_of_mem c hm)))

/-- Strings with equal character data are equal. -/
theorem string_mk_inj {a b : List Char} (h : (⟨a⟩ : String) = ⟨b⟩) : a = b :=
  congrArg String.data h

/-- `jsToLower` absorbs a preceding `jsToUpper`. -/
theorem jsToLower_jsToUpper (s : String) : jsToLower (jsToUpper s) = jsToLower s := by
  unfold jsToLower jsToUpper
  apply congrArg String.mk
  rw [List.map_map]
  have hf : Char.toLower ∘ Char.toUpper = Char.toLower := funext toLower_toUpper
  rw [hf]

/-- `jsTrim` commutes with `jsToUpper`. -/
theorem jsTrim_jsToUpper (s : String) : jsTrim (jsToUpper s) = jsToUpper (jsTrim s) := by
  unfold jsTrim jsToUpper
  apply congrArg String.mk
  have hw : Char.isWhitespace ∘ Char.toUpper = Char.isWhitespace := funext isWhitespace_toUpper
  simp only [String.data]
  rw [List.dropWhile_map, hw, ← List.map_reverse, List.dropWhile_map, hw, ← List.map_reverse]

/-- `jsToUpper` preserves emptiness. -/
theorem jsToUpper_eq_empty_iff (s : String) : jsToUpper s = "" ↔ s = "" := by
  constructor
  · intro h
    have hd : s.data.map Char.toUpper = [] := string_mk_inj h
    have : s.data = [] := List.map_eq_nil_iff.mp hd
    cases s
    simp_all
  · intro h
    subst h
    rfl

/-! ## Data model -/

/-- A folder / genre entry as produced by the `/genres` and `/folders`
handlers: `{ name, path }`. -/
structure Folder where
  name : String
  path : String
deriving DecidableEq, Repr

/-- A song entry as produced by the `/songs/:genre` handlers
(`src/server.js`, `part_003`).  `key` records `file.name`, the object key
the entry was built from; the handler also embeds it in `url`.  The
`size` / `lastModified` metadata fields are backend-supplied and omitted. -/
structure Song where
  name : String
  url : String
  genre : String
  key : String
deriving DecidableEq, Repr

/-- A song entry as produced by the `part_008` `/songs/:folder` handler. -/
structure Song8 where
  name : String
  url : String
  folder : String
  key : String
deriving DecidableEq, Repr

/-- A search result of the `src/server.js` `/search` handler. -/
structure SearchItem where
  name : String
  url : String
  genre : String
deriving DecidableEq, Repr

/-- A `{ name, url }` result as produced by the `part_001` and `part_005`
`/search` handlers. -/
structure SimpleItem where
  name : String
  url : String
deriving DecidableEq, Repr

/-- Outcome of a search request: a JSON list, or a 400 rejection for a
missing/empty query. -/
inductive SearchResp (α : Type) where
  | ok (items : List α)
  | badRequest
deriving DecidableEq

/-- Public GCS object URL, as interpolated by all GCS handlers:
`https://storage.googleapis.com/<bucket>/<key>`. -/
def gcsObjectUrl (bucket key : String) : String :=
  "https://storage.googleapis.com/" ++ bucket ++ "/" ++ key

/-! ## Key-space taxonomy resolver -/

/-- The `delimiter: '/'` prefix a key contributes to a GCS
`bucket.getFiles({ delimiter: '/' })` listing: its first segment followed
by `'/'`, or none for a root-level key. -/
def gcsPre? (k : String) : Option String :=
  if k.data.contains '/' then some ⟨k.data.takeWhile (· != '/') ++ ['/']⟩ else none

/-- First-occurrence deduplication (the backend reports each distinct
delimiter prefix once). -/
def dedupA (seen : List String) : List String → List String
  | [] => []
  | x :: xs => if x ∈ seen then dedupA seen xs else x :: dedupA (x :: seen) xs

/-- The `prefixes` array of a `bucket.getFiles({ delimiter: '/' })` call:
the distinct first-segment prefixes of the keys containing `'/'`. -/
def gcsPrefixes (keys : List String) : List String :=
  dedupA [] (keys.filterMap gcsPre?)

/-- `allFiles.some(file => !file.name.includes('/'))` — are there
root-level keys? -/
def hasRootFiles (keys : List String) : Bool :=
  keys.any (fun k => !(k.data.contains '/'))

/-- The non-synthetic folder entries of `getFolders` in `src/server.js`:
`prefixes.map(folder => ({ name: folder.replace('/', ''), path: folder }))`. -/
def folderEntries (keys : List String) : List Folder :=
  (gcsPrefixes keys).map (fun p => { name := jsReplaceOnce p "/" "", path := p })

/-- The successful path of `getFolders` in `src/server.js`: the mapped
delimiter prefixes, with the synthetic `"All Songs"` root folder unshifted
in front when root-level files exist. -/
def listFoldersOf (keys : List String) : List Folder :=
  if hasRootFiles keys then { name := "All Songs", path := "" } :: folderEntries keys
  else folderEntries keys

/-- `getFolders` of `src/server.js` including its `catch` branch: a failed
backend listing is caught and the fallback `[{ name: "All Songs",
path: "" }]` is returned. -/
def getFolders (listing : Except String (List String)) : List Folder :=
  match listing with
  | .ok keys => listFoldersOf keys
  | .error _ => [{ name := "All Songs", path := "" }]

/-- `getFolders` of `part_003`: `[All Songs]` only when there are no
delimiter prefixes but root files exist; a failed listing is caught and
`[]` is returned. -/
def getFolders_part003 (listing : Except String (List String)) : List Folder :=
  match listing with
  | .ok keys =>
    if (gcsPrefixes keys).isEmpty && hasRootFiles keys then
      [{ name := "All Songs", path := "" }]
    else (gcsPrefixes keys).map (fun p => { name := jsReplaceOnce p "/" "", path := p })
  | .error _ => []

/-- The listing prefix used by the `/songs/:genre` handlers:
`req.params.genre === "All Songs" ? "" : `${req.params.genre}/``. -/
def genrePfx (genre : String) : String :=
  if genre = "All Songs" then "" else genre ++ "/"

/-- The keys a `/songs/:genre` handler works on: the `prefix`-filtered
backend listing with folder-marker keys (ending in `'/'`) filtered out. -/
def selectedKeys (keys : List String) (genre : String) : List String :=
  (keys.filter (fun k => jsStartsWith k (genrePfx genre))).filter
    (fun k => !(jsEndsWith k "/"))

/-- The `/songs/:genre` handler of `src/server.js` / `part_003`:
`name` is `file.name.replace(prefix, '')`. -/
def songsByGenre (bucket : String) (keys : List String) (genre : String) : List Song :=
  (selectedKeys keys genre).map (fun k =>
    { name := jsReplaceOnce k (genrePfx genre) "", url := gcsObjectUrl bucket k,
      genre := genre, key := k })

/-- `getFolderName` of `part_008`: `path.dirname`, with `"."` mapped to `""`. -/
def getFolderName (filePath : String) : String :=
  let dir := jsDirname filePath
  if dir = "." then "" else dir

/-- The `/songs/:folder` handler of `part_008`: lists keys under
`folder + "/"` and uses `path.basename(file.name)` as the display name. -/
def songsByFolder_part008 (bucket : String) (keys : List String) (folder : String) :
    List Song8 :=
  ((keys.filter (fun k => jsStartsWith k (folder ++ "/"))).filter
      (fun k => !(jsEndsWith k "/"))).map (fun k =>
    { name := basenameJs k, url := gcsObjectUrl bucket k,
      folder := getFolderName k, key := k })

/-! ## Search handlers -/

/-- The `/search` handler of `src/server.js`: trims the query, then keeps
keys whose basename, lower-cased, includes the lower-cased query; results
carry the basename and `split('/')[0] || 'All Songs'` as genre. -/
def searchServer (bucket : String) (keys : List String) (q : String) :
    SearchResp SearchItem :=
  .ok ((keys.filter (fun k =>
        jsIncludes (jsToLower (basenameJs k)) (jsToLower (jsTrim q)))).map (fun k =>
    { name := basenameJs k, url := gcsObjectUrl bucket k,
      genre := if jsSplitHead k = "" then "All Songs" else jsSplitHead k }))

/-- The `/search` handler of `part_001`: rejects a blank query with 400,
otherwise lists keys with the lower-cased query as listing prefix;
`name` is `file.name.replace('.mp3', '')`. -/
def searchPart001 (bucket : String) (keys : List String) (q : String) :
    SearchResp SimpleItem :=
  if jsTrim q = "" then .badRequest
  else .ok ((keys.filter (fun k => jsStartsWith k (jsToLower q))).map (fun k =>
    { name := jsReplaceOnce k ".mp3" "", url := gcsObjectUrl bucket k }))

/-- The `/search` handler of `part_005`: lists keys with the raw query as
listing prefix (no case normalisation). -/
def searchPart005 (bucket : String) (keys : List String) (q : String) :
    List SimpleItem :=
  (keys.filter (fun k => jsStartsWith k q)).map (fun k =>
    { name := k, url := gcsObjectUrl bucket k })

/-! ## Upload handler -/

/-- JS `v || dflt` for an optional string field: the default replaces a
missing or empty value. -/
def jsOrDefault (v : Option String) (dflt : String) : String :=
  match v with
  | none => dflt
  | some s => if s = "" then dflt else s

/-- The stored object key of the `POST /upload` handler
(`src/server.js`, `part_003`): `genre = req.body.genre || 'Other'`,
`fileName = genre ? `${genre}/${originalname}` : originalname`. -/
def uploadKey (genreField : Option String) (originalname : String) : String :=
  let genre := jsOrDefault genreField "Other"
  if genre = "" then originalname else genre ++ "/" ++ originalname

/-! ## Temporary-access credential issuer -/

/-- The `cache` of `part_003`: `{ auth: null, authExpiry: null }`. -/
structure B2Cache where
  auth : Option String
  authExpiry : Option Int
deriving DecidableEq, Repr

/-- The initial cache. -/
def initialCache : B2Cache :=
  { auth := none, authExpiry := none }

/-- Result of one `authorizeB2()` call: the returned token, the cache
afterwards, and how many backend `b2.authorize()` requests were issued
(0 or 1). -/
structure AuthStep where
  token : String
  cache : B2Cache
  backendCalls : Nat
deriving DecidableEq, Repr

/-- `authorizeB2` of `part_003`: returns the cached auth while
`cache.auth && cache.authExpiry > Date.now()`, otherwise issues one
backend authorization (whose token is `freshTok`) and caches it with
expiry `now + CACHE_TTL * 1000`. -/
def authorizeB2 (ttlSec : Int) (c : B2Cache) (now : Int) (freshTok : String) : AuthStep :=
  match c.auth, c.authExpiry with
  | some a, some e =>
    if now < e then { token := a, cache := c, backendCalls := 0 }
    else { token := freshTok,
           cache := { auth := some freshTok, authExpiry := some (now + ttlSec * 1000) },
           backendCalls := 1 }
  | _, _ =>
    { token := freshTok,
      cache := { auth := some freshTok, authExpiry := some (now + ttlSec * 1000) },
      backendCalls := 1 }

/-! ## Stream handlers: download-authorization requests and responses -/

/-- The body of a `b2_get_download_authorization` call. -/
structure DownloadAuthRequest where
  bucketId : String
  fileNamePfx : String
  validDurationInSeconds : Int
deriving DecidableEq, Repr

/-- B2 semantics of a download authorization: the issued token grants
access to exactly the keys extending `fileNamePrefix`. -/
def tokenGrants (fileNamePfx objectKey : String) : Bool :=
  fileNamePfx.data.isPrefixOf objectKey.data

/-- The download-authorization request of the `part_000`
`/api/stream/:fileName` handler: `fileNamePrefix: fileName`, 3600 s. -/
def streamAuthReq_part000 (bucketId fileName : String) : DownloadAuthRequest :=
  { bucketId := bucketId, fileNamePfx := fileName, validDurationInSeconds := 3600 }

/-- The download-authorization request of the `part_002`
`/api/stream/:fileName` handler: `fileNamePrefix: fileName`, 3600 s. -/
def streamAuthReq_part002 (bucketId fileName : String) : DownloadAuthRequest :=
  { bucketId := bucketId, fileNamePfx := fileName, validDurationInSeconds := 3600 }

/-- The download-authorization request of the `part_004`
`/api/stream/:fileId` handler: `fileNamePrefix: fileId`, 86400 s. -/
def streamAuthReq_part004 (bucketId fileId : String) : DownloadAuthRequest :=
  { bucketId := bucketId, fileNamePfx := fileId, validDurationInSeconds := 86400 }

/-- The download-authorization request of the `part_006`
`/api/stream/:fileId` handler: `fileNamePrefix: ''`, 3600 s. -/
def streamAuthReq_part006 (bucketId _fileId : String) : DownloadAuthRequest :=
  { bucketId := bucketId, fileNamePfx := "", validDurationInSeconds := 3600 }

/-- The download-authorization request of the `part_007`
`/api/stream/:fileId` handler: `fileNamePrefix: ''` ("For any file"),
3600 s. -/
def streamAuthReq_part007 (bucketId _fileId : String) : DownloadAuthRequest :=
  { bucketId := bucketId, fileNamePfx := "", validDurationInSeconds := 3600 }

/-- A `/stream` JSON response: `url`, optional separate `token`, optional
`expiresAt` (milliseconds). -/
structure StreamResp where
  url : String
  token : Option String
  expiresAt : Option Int
deriving DecidableEq, Repr

/-- Percent-encoding digit (upper case). -/
def hexDigitU (n : Nat) : Char :=
  if n < 10 then Char.ofNat (48 + n) else Char.ofNat (55 + n)

/-- Is the character left unescaped by JS `encodeURIComponent`? -/
def isUnreservedChar (c : Char) : Bool :=
  c.isAlphanum || c == '-' || c == '_' || c == '.' || c == '!' || c == '~' ||
    c == '*' || c == Char.ofNat 39 || c == '(' || c == ')'

/-- `encodeURIComponent` of a single character: itself when unreserved,
otherwise the percent-encoded UTF-8 bytes. -/
def encChar (c : Char) : List Char :=
  if isUnreservedChar c then [c]
  else (String.utf8EncodeChar c).flatMap
    (fun b => ['%', hexDigitU (b.toNat / 16), hexDigitU (b.toNat % 16)])

/-- JS `encodeURIComponent`. -/
def encodeURIComponent (s : String) : String :=
  ⟨s.data.flatMap encChar⟩

/-- The `part_002` `/api/stream/:fileName` response:
`` `https://f005.backblazeb2.com/file/${bucket}/${encodeURIComponent(fileName)}` ``
with a separate `token` and `expiresAt: Date.now() + 3600000`. -/
def streamHandler_part002 (bucketName fileName dlToken : String) (now : Int) : StreamResp :=
  { url := "https://f005.backblazeb2.com/file/" ++ bucketName ++ "/" ++
      encodeURIComponent fileName,
    token := some dlToken,
    expiresAt := some (now + 3600000) }

/-- The `part_006` `/api/stream/:fileId` response:
`res.json({ url: downloadUrl })` — the download URL with the embedded
authorization token; no `expiresAt` field is returned. -/
def streamHandler_part006 (bucketName fileId dlToken : String) : StreamResp :=
  { url := "https://f002.backblazeb2.com/file/" ++ bucketName ++ "/" ++ fileId ++
      "?Authorization=" ++ dlToken,
    token := none,
    expiresAt := none }

/-! ## Claim C1: credential caching within the TTL window -/

/-- C1: starting unauthenticated, two `authorizeB2()` calls of which the
second occurs while `now` is still within the TTL window of the first
call's credential (`now2 < now1 + ttlSec * 1000`) return byte-identical
token values, and exactly one backend authorization request is issued
between them. -/
theorem C1_credential_cache_within_ttl (ttlSec now1 now2 : Int) (tok1 tok2 : String)
    (h : now2 < now1 + ttlSec * 1000) :
    (authorizeB2 ttlSec (authorizeB2 ttlSec initialCache now1 tok1).cache now2 tok2).token
        = (authorizeB2 ttlSec initialCache now1 tok1).token ∧
    (authorizeB2 ttlSec initialCache now1 tok1).backendCalls
        + (authorizeB2 ttlSec (authorizeB2 ttlSec initialCache now1 tok1).cache
            now2 tok2).backendCalls = 1 := by
  simp [authorizeB2, initialCache, if_pos h]

/-- C1 witness: concrete instance — authorize at time 0 with TTL 3600 s,
call again at time 1000 ms. -/
theorem C1_credential_cache_within_ttl_witness :
    (authorizeB2 3600 (authorizeB2 3600 initialCache 0 "tokA").cache 1000 "tokB").token
        = (authorizeB2 3600 initialCache 0 "tokA").token ∧
    (authorizeB2 3600 initialCache 0 "tokA").backendCalls
        + (authorizeB2 3600 (authorizeB2 3600 initialCache 0 "tokA").cache
            1000 "tokB").backendCalls = 1 :=
  C1_credential_cache_within_ttl 3600 0 1000 "tokA" "tokB" (by decide)

/-! ## Claim C3: refresh after expiry -/

/-- C3: in any state whose cached credential has expired (`e ≤ now`), the
next `authorizeB2()` call issues exactly one new backend authorization
request and returns the freshly obtained token, not the stale cached
one. -/
theorem C3_refresh_after_expiry (ttlSec now e : Int) (a freshTok : String)
    (h : e ≤ now) :
    (authorizeB2 ttlSec { auth := some a, authExpiry := some e } now freshTok).backendCalls
        = 1 ∧
    (authorizeB2 ttlSec { auth := some a, authExpiry := some e } now freshTok).token
        = freshTok ∧
    (authorizeB2 ttlSec { auth := some a, authExpiry := some e } now freshTok).cache.authExpiry
        = some (now + ttlSec * 1000) := by
  simp [authorizeB2, if_neg (not_lt.mpr h)]

/-- C3 witness: concrete instance — cached credential expired at time 5,
call at time 10. -/
theorem C3_refresh_after_expiry_witness :
    (authorizeB2 3600 { auth := some "stale", authExpiry := some 5 } 10 "fresh").backendCalls
        = 1 ∧
    (authorizeB2 3600 { auth := some "stale", authExpiry := some 5 } 10 "fresh").token
        = "fresh" ∧
    (authorizeB2 3600 { auth := some "stale", authExpiry := some 5 } 10 "fresh").cache.authExpiry
        = some (10 + 3600 * 1000) :=
  C3_refresh_after_expiry 3600 10 5 "stale" "fresh" (by decide)

/-! ## Claim C4: scope of the download authorization -/

/-- C4 counterexample: the `part_006` stream handler requests the download
authorization with `fileNamePrefix: ''`, not the requested key
`"a.mp3"` — and the empty prefix makes the token valid for a completely
different object as well. -/
theorem C4_counterexample :
    (streamAuthReq_part006 "bkt" "a.mp3").fileNamePfx ≠ "a.mp3" ∧
    tokenGrants (streamAuthReq_part006 "bkt" "a.mp3").fileNamePfx "other/b.mp3" = true := by
  decide

/-- C4 amended: the `part_000`, `part_002` and `part_004` stream handlers
pass the requested key itself as `fileNamePrefix`, so their download token
only grants access to keys extending the requested key; the `part_006` and
`part_007` handlers pass the empty prefix, whose token grants access to
every object in the bucket. -/
theorem C4_amended_scoped_or_unscoped (bucketId k : String) :
    (streamAuthReq_part000 bucketId k).fileNamePfx = k ∧
    (streamAuthReq_part002 bucketId k).fileNamePfx = k ∧
    (streamAuthReq_part004 bucketId k).fileNamePfx = k ∧
    (∀ other : String,
      tokenGrants (streamAuthReq_part000 bucketId k).fileNamePfx other = true →
        jsStartsWith other k = true) ∧
    (streamAuthReq_part006 bucketId k).fileNamePfx = "" ∧
    (streamAuthReq_part007 bucketId k).fileNamePfx = "" ∧
    (∀ other : String,
      tokenGrants (streamAuthReq_part006 bucketId k).fileNamePfx other = true) := by
  refine ⟨rfl, rfl, rfl, fun other hg => hg, rfl, rfl, fun other => ?_⟩
  cases hd : ("" : String).data with
  | nil => simp [tokenGrants, streamAuthReq_part006, hd, List.isPrefixOf]
  | cons c cs => simp at hd

/-- C4 witness: concrete instance at the key `"songs/jazz/track1.mp3"`. -/
theorem C4_amended_scoped_or_unscoped_witness :
    (streamAuthReq_part000 "bkt" "songs/jazz/track1.mp3").fileNamePfx
        = "songs/jazz/track1.mp3" ∧
    (streamAuthReq_part002 "bkt" "songs/jazz/track1.mp3").fileNamePfx
        = "songs/jazz/track1.mp3" ∧
    (streamAuthReq_part004 "bkt" "songs/jazz/track1.mp3").fileNamePfx
        = "songs/jazz/track1.mp3" ∧
    (∀ other : String,
      tokenGrants (streamAuthReq_part000 "bkt" "songs/jazz/track1.mp3").fileNamePfx other
          = true →
        jsStartsWith other "songs/jazz/track1.mp3" = true) ∧
    (streamAuthReq_part006 "bkt" "songs/jazz/track1.mp3").fileNamePfx = "" ∧
    (streamAuthReq_part007 "bkt" "songs/jazz/track1.mp3").fileNamePfx = "" ∧
    (∀ other : String,
      tokenGrants (streamAuthReq_part006 "bkt" "songs/jazz/track1.mp3").fileNamePfx other
          = true) :=
  C4_amended_scoped_or_unscoped "bkt" "songs/jazz/track1.mp3"

/-! ## Claim C6: stream URL and expiry -/

/-- C6 counterexample: the `part_006` stream handler (a 3600-second-TTL
`/stream` handler) returns no `expiresAt` field at all, so the response for
`"songs/jazz/track1.mp3"` does not carry `t + 3600000`. -/
theorem C6_counterexample :
    (streamHandler_part006 "bkt" "songs/jazz/track1.mp3" "tok").expiresAt = none := rfl

/-- C6 amended: the `part_002` stream handler's response contains the
URL-encoded object key as a substring of the returned `url`, and its
`expiresAt` is exactly `now + 3600000` milliseconds; the `part_006`
handler returns no `expiresAt` field. -/
theorem C6_amended_url_and_expiry (bucketName fileName dlToken : String) (now : Int) :
    (∃ p, (streamHandler_part002 bucketName fileName dlToken now).url
        = p ++ encodeURIComponent fileName) ∧
    (streamHandler_part002 bucketName fileName dlToken now).expiresAt
        = some (now + 3600000) :=
  ⟨⟨"https://f005.backblazeb2.com/file/" ++ bucketName ++ "/", rfl⟩, rfl⟩

/-! ## Claim C9: suppressed listing failures -/

/-- C9 counterexample: when the backend listing call fails, `getFolders` of
`src/server.js` catches the error and returns the successful fallback
`[{ name: "All Songs", path: "" }]` instead of propagating the failure. -/
theorem C9_counterexample :
    getFolders (Except.error "network down") = [{ name := "All Songs", path := "" }] := rfl

/-- C9 amended: a failed upstream key listing is caught, not propagated:
`src/server.js`'s `getFolders` returns the fallback `[All Songs]` and
`part_003`'s returns `[]`, so a folder-listing request responds
successfully even though the backend listing call failed. -/
theorem C9_amended_fallbacks (e : String) :
    getFolders (Except.error e) = [{ name := "All Songs", path := "" }] ∧
    getFolders_part003 (Except.error e) = [] :=
  ⟨rfl, rfl⟩

/-! ## Claim C10: default upload folder -/

/-- C10: an upload with a file but a missing or empty `genre` field is
stored under the key `"Other/" + originalname`, hence not at the bucket
root (the key contains a `'/'`). -/
theorem C10_default_upload_folder (g : Option String) (orig : String)
    (h : g = none ∨ g = some "") :
    uploadKey g orig = "Other/" ++ orig ∧
    (uploadKey g orig).data.contains '/' = true := by
  have hk : uploadKey g orig = "Other/" ++ orig := by
    rcases h with h | h <;> subst h <;> rfl
  refine ⟨hk, ?_⟩
  rw [hk]
  have hd : ("Other/" ++ orig).data = "Other/".data ++ orig.data := String.data_append _ _
  rw [hd]
  have hm : '/' ∈ "Other/".data ++ orig.data :=
    List.mem_append_left _ (by decide)
  simp [List.contains, List.elem_eq_true_of_mem hm]

/-- C10 witness: concrete instance — no genre field, file `song.mp3`. -/
theorem C10_default_upload_folder_witness :
    uploadKey none "song.mp3" = "Other/" ++ "song.mp3" ∧
    (uploadKey none "song.mp3").data.contains '/' = true :=
  C10_default_upload_folder none "song.mp3" (Or.inl rfl)

/-! ## Claim C5: empty-query search policy -/

/-- C5 counterexample: the program applies two different empty-query
policies: `src/server.js`'s `/search` answers the empty query with results
(every key matches the empty substring), while `part_001`'s `/search`
rejects the same request with HTTP 400. -/
theorem C5_counterexample :
    searchServer "bkt" ["jazz/a.mp3"] "" =
      .ok [{ name := "a.mp3", url := gcsObjectUrl "bkt" "jazz/a.mp3", genre := "jazz" }] ∧
    searchPart001 "bkt" ["jazz/a.mp3"] "" = .badRequest :=
  ⟨by decide, rfl⟩

/-- C5 amended: the empty-query policy is per-variant, not program-wide:
for every key set, `src/server.js`'s `/search` with the empty query
returns every listed key as a result (marker keys included), while
`part_001`'s `/search` rejects the empty query as invalid with
HTTP 400. -/
theorem C5_amended_per_variant_policy (bucket : String) (keys : List String) :
    searchServer bucket keys "" =
      .ok (keys.map (fun k =>
        { name := basenameJs k, url := gcsObjectUrl bucket k,
          genre := if jsSplitHead k = "" then "All Songs" else jsSplitHead k })) ∧
    searchPart001 bucket keys "" = .badRequest := by
  constructor
  · unfold searchServer
    have h1 : jsToLower (jsTrim "") = "" := rfl
    rw [h1]
    have h2 : ∀ k : String, jsIncludes (jsToLower (basenameJs k)) "" = true :=
      fun k => jsIncludesL_nil _
    rw [List.filter_eq_self.mpr (fun a _ => h2 a)]
  · rfl

/-! ## Claim C8: case-insensitivity of search -/

/-- C8 counterexample: the `part_005` `/search` handler matches the raw
query as a case-sensitive listing prefix, so `"jazz"` and `"JAZZ"` give
different result sets on the key set `["jazz/a.mp3"]`. -/
theorem C8_counterexample :
    searchPart005 "bkt" ["jazz/a.mp3"] "jazz" ≠
      searchPart005 "bkt" ["jazz/a.mp3"] "JAZZ" := by
  decide

/-- C8 amended: the `src/server.js` and `part_001` search handlers are
case-insensitive — upper-casing the query does not change the response —
while `part_005`'s prefix-based search is case-sensitive. -/
theorem C8_amended_case_insensitive (bucket : String) (keys : List String) (q : String) :
    searchServer bucket keys (jsToUpper q) = searchServer bucket keys q ∧
    searchPart001 bucket keys (jsToUpper q) = searchPart001 bucket keys q := by
  constructor
  · unfold searchServer
    rw [jsTrim_jsToUpper, jsToLower_jsToUpper]
  · unfold searchPart001
    rw [jsToLower_jsToUpper]
    by_cases h : jsTrim q = ""
    · rw [if_pos h, if_pos (by rw [jsTrim_jsToUpper, h]; rfl)]
    · have hne : ¬ jsTrim (jsToUpper q) = "" := fun hc =>
        h ((jsToUpper_eq_empty_iff _).mp ((jsTrim_jsToUpper q).symm.trans hc))
      rw [if_neg h, if_neg hne]

/-! ## Claim C7: song display names and marker exclusion -/

/-- C7 counterexample: the `part_008` `/songs/:folder` handler uses
`path.basename`, so for the nested key `"jazz/sub/x.mp3"` in folder
`"jazz"` the returned display name (`"x.mp3"`) is not the key with the
leading `"jazz/"` removed (`"sub/x.mp3"`). -/
theorem C7_counterexample :
    (songsByFolder_part008 "bkt" ["jazz/sub/x.mp3"] "jazz").map Song8.name ≠
      (songsByFolder_part008 "bkt" ["jazz/sub/x.mp3"] "jazz").map
        (fun s => (⟨s.key.data.drop ("jazz/" : String).data.length⟩ : String)) := by
  decide

/-- C7 amended: for every folder other than the synthetic `"All Songs"`,
every Song returned by the `src/server.js`-style `/songs/:genre` handler
has a key extending `folder + "/"`, a display name equal to the key with
that leading prefix removed, and a key not ending in `'/'`; the `part_008`
handler also never returns a key ending in `'/'`, but its display name is
the basename, which differs for nested keys. -/
theorem C7_amended_display_names (bucket : String) (keys : List String) (genre : String)
    (h : genre ≠ "All Songs") :
    (∀ s ∈ songsByGenre bucket keys genre,
        jsEndsWith s.key "/" = false ∧
        jsStartsWith s.key (genre ++ "/") = true ∧
        s.name = ⟨s.key.data.drop (genre ++ "/").data.length⟩) ∧
    (∀ s ∈ songsByFolder_part008 bucket keys genre,
        jsEndsWith s.key "/" = false) := by
  have hpfx : genrePfx genre = genre ++ "/" := if_neg h
  constructor
  · intro s hs
    unfold songsByGenre at hs
    rcases List.mem_map.mp hs with ⟨k, hk, rfl⟩
    unfold selectedKeys at hk
    have hk2 := List.mem_filter.mp hk
    have hk3 := List.mem_filter.mp hk2.1
    have hstart : jsStartsWith k (genre ++ "/") = true := hpfx ▸ hk3.2
    refine ⟨?_, hstart, ?_⟩
    · simpa using hk2.2
    · show jsReplaceOnce k (genrePfx genre) "" = _
      rw [hpfx]
      exact jsReplaceOnce_of_startsWith hstart
  · intro s hs
    unfold songsByFolder_part008 at hs
    rcases List.mem_map.mp hs with ⟨k, hk, rfl⟩
    have hk2 := List.mem_filter.mp hk
    simpa using hk2.2

/-- C7 witness: concrete instance for the folder `"jazz"` with a nested
marker key filtered out. -/
theorem C7_amended_display_names_witness :
    (∀ s ∈ songsByGenre "bkt" ["jazz/a.mp3", "jazz/d/", "rock/c.mp3"] "jazz",
        jsEndsWith s.key "/" = false ∧
        jsStartsWith s.key ("jazz" ++ "/") = true ∧
        s.name = ⟨s.key.data.drop ("jazz" ++ "/").data.length⟩) ∧
    (∀ s ∈ songsByFolder_part008 "bkt" ["jazz/a.mp3", "jazz/d/", "rock/c.mp3"] "jazz",
        jsEndsWith s.key "/" = false) :=
  C7_amended_display_names "bkt" ["jazz/a.mp3", "jazz/d/", "rock/c.mp3"] "jazz" (by decide)

/-! ## Claim C2: folder listings -/

/-- Elements of `dedupA seen l` come from `l`. -/
theorem mem_of_mem_dedupA {x : String} :
    ∀ {seen l : List String}, x ∈ dedupA seen l → x ∈ l := by
  intro seen l
  induction l generalizing seen with
  | nil => intro h; simp [dedupA] at h
  | cons y ys ih =>
    intro h
    unfold dedupA at h
    split at h
    · exact List.mem_cons_of_mem y (ih h)
    · rcases List.mem_cons.mp h with h1 | h1
      · exact h1 ▸ List.mem_cons_self y ys
      · exact List.mem_cons_of_mem y (ih h1)

/-- `dedupA` produces a duplicate-free list avoiding `seen`. -/
theorem nodup_dedupA_aux :
    ∀ (l seen : List String), (dedupA seen l).Nodup ∧ ∀ x ∈ dedupA seen l, x ∉ seen := by
  intro l
  induction l with
  | nil => intro seen; simp [dedupA]
  | cons y ys ih =>
    intro seen
    unfold dedupA
    by_cases h : y ∈ seen
    · rw [if_pos h]; exact ih seen
    · rw [if_neg h]
      obtain ⟨hnd, hns⟩ := ih (y :: seen)
      constructor
      · exact List.nodup_cons.mpr ⟨fun hy => hns y hy (List.mem_cons_self y seen), hnd⟩
      · intro x hx
        rcases List.mem_cons.mp hx with h1 | h1
        · exact h1 ▸ h
        · exact fun hxs => hns x h1 (List.mem_cons_of_mem y hxs)

/-- The backend's delimiter prefixes are duplicate-free. -/
theorem nodup_gcsPrefixes (keys : List String) : (gcsPrefixes keys).Nodup :=
  (nodup_dedupA_aux _ []).1

/-- Every delimiter prefix is a slash-free segment followed by `'/'`. -/
theorem gcsPre?_shape {k p : String} (h : gcsPre? k = some p) :
    ∃ seg : List Char, p = ⟨seg ++ ['/']⟩ ∧ '/' ∉ seg := by
  unfold gcsPre? at h
  split at h
  · refine ⟨k.data.takeWhile (· != '/'), (Option.some.inj h).symm, fun hm => ?_⟩
    have := List.mem_takeWhile_imp hm
    simp at this
  · exact absurd h (by simp)

/-- Every member of `gcsPrefixes keys` is contributed by some key. -/
theorem mem_gcsPrefixes {keys : List String} {p : String} (hp : p ∈ gcsPrefixes keys) :
    ∃ k ∈ keys, gcsPre? k = some p := by
  rcases List.mem_filterMap.mp (mem_of_mem_dedupA hp) with ⟨k, hk, hkp⟩
  exact ⟨k, hk, hkp⟩

/-- The folder name computed from a delimiter prefix is its segment. -/
theorem folderName_of_shape {seg : List Char} (h : '/' ∉ seg) :
    jsReplaceOnce ⟨seg ++ ['/']⟩ "/" "" = ⟨seg⟩ := by
  show (⟨jsReplaceOnceL ['/'] [] (seg ++ ['/'])⟩ : String) = ⟨seg⟩
  rw [jsReplaceOnceL_seg_slash h]

/-- If no key has first segment `"All Songs"`, no non-synthetic folder
entry is named `"All Songs"`. -/
theorem allSongs_not_mem_folderEntries {keys : List String}
    (h : ∀ k ∈ keys, gcsPre? k ≠ some "All Songs/") :
    ∀ f ∈ folderEntries keys, f.name ≠ "All Songs" := by
  intro f hf
  unfold folderEntries at hf
  rcases List.mem_map.mp hf with ⟨p, hp, rfl⟩
  rcases mem_gcsPrefixes hp with ⟨k, hk, hkp⟩
  rcases gcsPre?_shape hkp with ⟨seg, rfl, hseg⟩
  rw [folderName_of_shape hseg]
  intro he
  have hseg_eq : seg = "All Songs".data := congrArg String.data he
  apply h k hk
  rw [hkp]
  subst hseg_eq
  decide

/-- Distinct delimiter prefixes have distinct folder names. -/
theorem name_inj_on_prefixes {keys : List String} :
    ∀ p1 ∈ gcsPrefixes keys, ∀ p2 ∈ gcsPrefixes keys,
      jsReplaceOnce p1 "/" "" = jsReplaceOnce p2 "/" "" → p1 = p2 := by
  intro p1 h1 p2 h2 he
  rcases mem_gcsPrefixes h1 with ⟨k1, _, hkp1⟩
  rcases mem_gcsPrefixes h2 with ⟨k2, _, hkp2⟩
  rcases gcsPre?_shape hkp1 with ⟨s1, rfl, hs1⟩
  rcases gcsPre?_shape hkp2 with ⟨s2, rfl, hs2⟩
  rw [folderName_of_shape hs1, folderName_of_shape hs2] at he
  have hs : s1 = s2 := congrArg String.data he
  rw [hs]

/-- The names of the non-synthetic folder entries are duplicate-free. -/
theorem nodup_entry_names (keys : List String) :
    ((folderEntries keys).map Folder.name).Nodup := by
  unfold folderEntries
  rw [List.map_map]
  have hcomp : (Folder.name ∘ fun p =>
      ({ name := jsReplaceOnce p "/" "", path := p } : Folder))
      = fun p => jsReplaceOnce p "/" "" := rfl
  rw [hcomp]
  exact List.Nodup.map_on name_inj_on_prefixes (nodup_gcsPrefixes keys)

/-- C2 counterexample: on the key set `["All Songs/a.mp3", "b.mp3"]` the
folder listing of `src/server.js` carries two folders both named
`"All Songs"` (the synthetic root and the real `All Songs/` folder). -/
theorem C2_counterexample :
    ¬ (((listFoldersOf ["All Songs/a.mp3", "b.mp3"]).map Folder.name).Nodup) := by
  decide

/-- C2 amended: provided no key's first segment is literally
`"All Songs"`, the folder listing contains no duplicate names, contains
the synthetic root folder iff some key has no `'/'`, and places it
first. -/
theorem C2_amended_folder_listing (keys : List String)
    (h : ∀ k ∈ keys, gcsPre? k ≠ some "All Songs/") :
    ((listFoldersOf keys).map Folder.name).Nodup ∧
    (({ name := "All Songs", path := "" } : Folder) ∈ listFoldersOf keys ↔
        hasRootFiles keys = true) ∧
    (hasRootFiles keys = true →
        (listFoldersOf keys).head? = some { name := "All Songs", path := "" }) := by
  have hnames := nodup_entry_names keys
  have hnot : ∀ f ∈ folderEntries keys, f.name ≠ "All Songs" :=
    allSongs_not_mem_folderEntries h
  unfold listFoldersOf
  by_cases hr : hasRootFiles keys = true
  · rw [if_pos hr]
    refine ⟨?_, ?_, ?_⟩
    · rw [List.map_cons]
      apply List.nodup_cons.mpr
      refine ⟨?_, hnames⟩
      intro hmem
      rcases List.mem_map.mp hmem with ⟨f, hf, hfe⟩
      exact hnot f hf hfe
    · exact ⟨fun _ => hr, fun _ => List.mem_cons_self _ _⟩
    · intro _; rfl
  · rw [if_neg hr]
    refine ⟨hnames, ?_, fun hcontra => absurd hcontra hr⟩
    constructor
    · intro hmem
      exact absurd rfl (hnot _ hmem)
    · intro hcontra
      exact absurd hcontra hr

/-- C2 witness: the spec's end-to-end key set
`["jazz/a.mp3", "jazz/b.mp3", "rock/c.mp3", "root.mp3"]`. -/
theorem C2_amended_folder_listing_witness :
    ((listFoldersOf ["jazz/a.mp3", "jazz/b.mp3", "rock/c.mp3", "root.mp3"]).map
        Folder.name).Nodup ∧
    (({ name := "All Songs", path := "" } : Folder) ∈
        listFoldersOf ["jazz/a.mp3", "jazz/b.mp3", "rock/c.mp3", "root.mp3"] ↔
      hasRootFiles ["jazz/a.mp3", "jazz/b.mp3", "rock/c.mp3", "root.mp3"] = true) ∧
    (hasRootFiles ["jazz/a.mp3", "jazz/b.mp3", "rock/c.mp3", "root.mp3"] = true →
      (listFoldersOf ["jazz/a.mp3", "jazz/b.mp3", "rock/c.mp3", "root.mp3"]).head?
        = some { name := "All Songs", path := "" }) :=
  C2_amended_folder_listing ["jazz/a.mp3", "jazz/b.mp3", "rock/c.mp3", "root.mp3"]
    (by decide)

end MusicBackend
